import Mathlib

/-!
Shallow embedding of the TaskSpec generation and enrichment pipeline of the
sidecar service (source files `app/spec_generator.py`, `app/rag_system.py`,
`app/models.py`).  Python strings are modelled as `String` / `List Char`,
Python non-negative ints as `Nat`, and Python numbers (floats) as `ℚ`, with
decimal literals read exactly.  The regular-expression matching inside
`parse_explicit_constraints` is modelled by an executable matcher for the
restricted pattern shape the source uses: one of a list of literal
alternatives, then `\s+`, then optionally a mandatory literal followed by
`\s+`, then optionally an optional literal group followed by `\s+`, then a
final greedy capture of one or more characters not in `\s,.` — scanned left
to right without overlap, exactly as `re.findall` does.
-/

namespace Sidecar

/-- ASCII whitespace, as matched by the regex class `\s` on ASCII text. -/
def isSpace (c : Char) : Bool :=
  c = ' ' || c = '\t' || c = '\n' || c = '\r' || c = '\x0b' || c = '\x0c'

/-- Characters admissible in a `[^\s,.]+` capture group. -/
def isCapChar (c : Char) : Bool :=
  !(isSpace c || c = ',' || c = '.')

/-- Python `str.lower`, restricted to the ASCII range. -/
def lowerList (l : List Char) : List Char :=
  l.map Char.toLower

/-- `startsWith pat l` holds when `pat` is an initial segment of `l`. -/
def startsWith : List Char → List Char → Bool
  | [], _ => true
  | _ :: _, [] => false
  | c :: cs, d :: ds => if c = d then startsWith cs ds else false

/-- Substring test: Python's `needle in haystack`. -/
def containsSub (pat : List Char) : List Char → Bool
  | [] => startsWith pat []
  | l@(_ :: rest) => startsWith pat l || containsSub pat rest

/-- Consume the literal `lit` from the front of `l`, returning the rest. -/
def dropLit : List Char → List Char → Option (List Char)
  | [], l => some l
  | _ :: _, [] => none
  | c :: cs, d :: ds => if c = d then dropLit cs ds else none

/-- Consume `\s+` (one or more whitespace characters, maximal munch). -/
def spaces1 : List Char → Option (List Char)
  | [] => none
  | c :: cs => if isSpace c then some (cs.dropWhile isSpace) else none

/-- Consume the greedy capture `([^\s,.]+)`; returns (capture, rest). -/
def cap1 : List Char → Option (List Char × List Char)
  | [] => none
  | c :: cs =>
    if isCapChar c then some (c :: cs.takeWhile isCapChar, cs.dropWhile isCapChar)
    else none

/-- Restricted regex shape used by `parse_explicit_constraints`: a set of
literal alternatives (stored as head character plus tail, so every
alternative consumes at least one character), an optional mandatory second
literal (each literal is followed by `\s+`), and an optional group
`(?:lit\s+)?` before the final capture. -/
structure Pat where
  alts : List (Char × List Char)
  mand : Option (List Char)
  optg : Option (List Char)

/-- The optional group `(?:o\s+)?` followed by the capture, with regex
backtracking: if the optional literal, its `\s+` and the following capture
all succeed they are used, otherwise the capture starts right away. -/
def optStep (o : List Char) (l2 : List Char) : Option (List Char × List Char) :=
  match dropLit o l2 with
  | none => cap1 l2
  | some l3 =>
    match spaces1 l3 with
    | none => cap1 l2
    | some l4 =>
      match cap1 l4 with
      | none => cap1 l2
      | some r => some r

/-- Match everything after the first literal alternative: `\s+`, then the
mandatory literal (if any) and `\s+`, then the optional group with
backtracking, then the capture. -/
def matchTail (pat : Pat) (l : List Char) : Option (List Char × List Char) :=
  match spaces1 l with
  | none => none
  | some l1 =>
    let afterMand : Option (List Char) :=
      match pat.mand with
      | none => some l1
      | some m =>
        match dropLit m l1 with
        | none => none
        | some l2 => spaces1 l2
    match afterMand with
    | none => none
    | some l2 =>
      match pat.optg with
      | none => cap1 l2
      | some o => optStep o l2

/-- Try to match one literal alternative at the head of `l`. -/
def matchAlt (pat : Pat) (a : Char × List Char) : List Char → Option (List Char × List Char)
  | [] => none
  | c :: cs =>
    if c = a.1 then
      match dropLit a.2 cs with
      | none => none
      | some l1 => matchTail pat l1
    else none

/-- Try the alternatives in order (regex alternation). -/
def matchAlts (pat : Pat) : List (Char × List Char) → List Char → Option (List Char × List Char)
  | [], _ => none
  | a :: as, l =>
    match matchAlt pat a l with
    | some r => some r
    | none => matchAlts pat as l

/-- Match the pattern at the start of `l`, returning (capture, rest). -/
def matchAt (pat : Pat) (l : List Char) : Option (List Char × List Char) :=
  matchAlts pat pat.alts l

/-- Fuel-driven scan implementing `re.findall`: find the leftmost match,
emit its capture, continue after the match; otherwise advance one
character.  Every match consumes at least one character, so fuel equal to
the length of the list is sufficient. -/
def findallF (pat : Pat) : Nat → List Char → List (List Char)
  | 0, _ => []
  | _ + 1, [] => []
  | fuel + 1, c :: cs =>
    match matchAt pat (c :: cs) with
    | some (cap, rest) => cap :: findallF pat fuel rest
    | none => findallF pat fuel cs

/-- `re.findall pat l` with adequate fuel. -/
def findallPat (pat : Pat) (l : List Char) : List (List Char) :=
  findallF pat l.length l

/-- Source pattern `avoid\s+(?:using\s+)?([^\s,.]+)`. -/
def patAvoid : Pat := ⟨[('a', "void".toList)], none, some "using".toList⟩

/-- Source pattern `don't\s+use\s+([^\s,.]+)`. -/
def patDontUse : Pat := ⟨[('d', "on't".toList)], some "use".toList, none⟩

/-- Source pattern `forbid\s+([^\s,.]+)`. -/
def patForbid : Pat := ⟨[('f', "orbid".toList)], none, none⟩

/-- Source pattern `no\s+([^\s,.]+)`. -/
def patNo : Pat := ⟨[('n', "o".toList)], none, none⟩

/-- Source pattern `without\s+([^\s,.]+)`. -/
def patWithout : Pat := ⟨[('w', "ithout".toList)], none, none⟩

/-- Source pattern `(?:prefer|use)\s+(?:the\s+)?([^\s,.]+)`. -/
def patPreferUse : Pat := ⟨[('p', "refer".toList), ('u', "se".toList)], none, some "the".toList⟩

/-- Source pattern `(?:must|should)\s+use\s+([^\s,.]+)`. -/
def patMustShouldUse : Pat := ⟨[('m', "ust".toList), ('s', "hould".toList)], some "use".toList, none⟩

/-- Source pattern `with\s+([^\s,.]+)`. -/
def patWith : Pat := ⟨[('w', "ith".toList)], none, none⟩

/-- Source pattern `using\s+([^\s,.]+)`. -/
def patUsing : Pat := ⟨[('u', "sing".toList)], none, none⟩

/-- The `avoid_patterns` list of the source, in order. -/
def avoidPats : List Pat := [patAvoid, patDontUse, patForbid, patNo, patWithout]

/-- The `prefer_patterns` list of the source, in order. -/
def preferPats : List Pat := [patPreferUse, patMustShouldUse, patWith, patUsing]

/-- The stop-word filter applied to every regex capture. -/
def stopwordsL : List (List Char) :=
  ["the", "a", "an", "to", "and", "or"].map String.toList

/-- A capture survives the stop-word filter. -/
def notStop (m : List Char) : Bool :=
  !(stopwordsL.contains m)

/-- Result record of `parse_explicit_constraints`. -/
structure ParsedConstraints where
  constraints_explicit : List String
  libraries_forbidden : List String
  libraries_preferred : List String
deriving DecidableEq

/-- `SpecGenerator.parse_explicit_constraints` from `spec_generator.py`.
Captures contain no whitespace (the capture class excludes `\s`), so the
source's `match.strip()` is the identity and is omitted. -/
def parse_explicit_constraints (prompt : String) : ParsedConstraints :=
  let lp := lowerList prompt.toList
  let forb := (avoidPats.flatMap fun pat => (findallPat pat lp).filter notStop).map
    (fun m => String.mk m)
  let pref := (preferPats.flatMap fun pat => (findallPat pat lp).filter notStop).map
    (fun m => String.mk m)
  let ce :=
    (if containsSub "no dependencies".toList lp || containsSub "no external deps".toList lp then
      ["Minimize external dependencies"] else []) ++
    (if containsSub "performance".toList lp then ["Optimize for performance"] else []) ++
    (if containsSub "security".toList lp || containsSub "secure".toList lp then
      ["Follow security best practices"] else []) ++
    (if containsSub "async".toList lp || containsSub "asynchronous".toList lp then
      ["Use asynchronous programming"] else []) ++
    (if containsSub "type".toList lp && containsSub "hint".toList lp then
      ["Use type hints"] else []) ++
    (if containsSub "test".toList lp then ["Include comprehensive tests"] else [])
  ⟨ce, forb, pref⟩

example :
    parse_explicit_constraints "don't use numpy" =
      ⟨[], ["numpy"], ["numpy"]⟩ := by decide

example :
    parse_explicit_constraints "avoid numpyx prefer pandas" =
      ⟨[], ["numpyx"], ["pandas"]⟩ := by decide

/-! ## Analysis signals and the Signal Scorer (`spec_generator.py`) -/

/-- The analysis-data bag read by `cluster_signals_to_taskspec` and the three
`_calculate_*` scorers.  Each field carries the default that the source's
`dict.get` calls supply for a missing key. -/
structure AnalysisSignals where
  duplication : Nat := 0
  complexity_score : ℚ := 0
  test_coverage_ratio : ℚ := 1
  todos : Nat := 0
  filepath : String := ""
  prompt : String := ""
deriving DecidableEq

/-- `SpecGenerator._calculate_risk`, source lines 150-176: the accumulated
`risk_score` before mapping. -/
def risk_score (s : AnalysisSignals) : Nat :=
  ((0 +
    (if s.complexity_score > 100 then 3 else if s.complexity_score > 50 then 2 else 0)) +
    (if s.test_coverage_ratio < mkRat 3 10 then 3
     else if s.test_coverage_ratio < mkRat 1 2 then 2 else 0)) +
    (if s.todos > 5 then 2 else 0)

/-- `SpecGenerator._calculate_risk`: map the score to a risk label. -/
def calculate_risk (s : AnalysisSignals) : String :=
  if risk_score s ≥ 5 then "high"
  else if risk_score s ≥ 3 then "medium"
  else "low"

/-- `SpecGenerator._calculate_priority`, source lines 178-201: the
accumulated `priority_score` (independent `if` statements, not `elif`). -/
def priority_score (s : AnalysisSignals) : Nat :=
  ((((0 +
    (if s.duplication > 10 then 3 else 0)) +
    (if s.complexity_score > 100 then 3 else 0)) +
    (if s.test_coverage_ratio < mkRat 1 5 then 3 else 0)) +
    (if s.duplication > 5 then 2 else 0)) +
    (if s.complexity_score > 50 then 2 else 0)

/-- `SpecGenerator._calculate_priority`: map the score to a label. -/
def calculate_priority (s : AnalysisSignals) : String :=
  if priority_score s ≥ 6 then "high"
  else if priority_score s ≥ 3 then "medium"
  else "low"

/-- `SpecGenerator._estimate_cost`, source lines 203-224: the accumulated
`cost_score` (`//` is floor division, modelled with `Int.floor`). -/
def cost_score (s : AnalysisSignals) : ℤ :=
  ((0 + ⌊s.complexity_score / 10⌋) + (s.duplication / 2 : Nat)) +
    (if s.test_coverage_ratio < mkRat 1 2 then 2 else 0)

/-- `SpecGenerator._estimate_cost`: map the score to a label. -/
def estimate_cost (s : AnalysisSignals) : String :=
  if cost_score s > 10 then "high"
  else if cost_score s > 5 then "medium"
  else "low"

/-! Specification-side scoring definitions, written from the words of the
claims (C1, C2, C3) so the code-side functions can be compared with them. -/

/-- Spec-side risk contribution of `complexity_score`: add 3 if above 100,
else add 2 if above 50. -/
def riskComplexityContrib (s : AnalysisSignals) : Nat :=
  if s.complexity_score > 100 then 3 else if s.complexity_score > 50 then 2 else 0

/-- Spec-side risk contribution of `test_coverage_ratio`: add 3 if below
0.3, else add 2 if below 0.5. -/
def riskCoverageContrib (s : AnalysisSignals) : Nat :=
  if s.test_coverage_ratio < mkRat 3 10 then 3
  else if s.test_coverage_ratio < mkRat 1 2 then 2 else 0

/-- Spec-side risk contribution of `todos`: add 2 if above 5. -/
def riskTodoContrib (s : AnalysisSignals) : Nat :=
  if s.todos > 5 then 2 else 0

/-- Spec-side risk score: the sum of the three contributions. -/
def specRiskScore (s : AnalysisSignals) : Nat :=
  riskComplexityContrib s + riskCoverageContrib s + riskTodoContrib s

/-- Spec-side mapping of a risk score to a label. -/
def specRiskLevel (score : Nat) : String :=
  if score ≥ 5 then "high" else if score ≥ 3 then "medium" else "low"

/-- Spec-side priority score: the sum of five independent contributions,
both duplication thresholds and both complexity thresholds may fire. -/
def specPriorityScore (s : AnalysisSignals) : Nat :=
  (if s.duplication > 10 then 3 else 0) +
  (if s.complexity_score > 100 then 3 else 0) +
  (if s.test_coverage_ratio < mkRat 1 5 then 3 else 0) +
  (if s.duplication > 5 then 2 else 0) +
  (if s.complexity_score > 50 then 2 else 0)

/-- Spec-side mapping of a priority score to a label. -/
def specPriorityLevel (score : Nat) : String :=
  if score ≥ 6 then "high" else if score ≥ 3 then "medium" else "low"

/-- Spec-side cost score:
`floor(complexity_score/10) + floor(duplication_count/2) + (2 if ratio<0.5)`. -/
def specCostScore (s : AnalysisSignals) : ℤ :=
  ⌊s.complexity_score / 10⌋ + ⌊(s.duplication : ℚ) / 2⌋ +
    (if s.test_coverage_ratio < mkRat 1 2 then 2 else 0)

/-- Spec-side mapping of a cost score to a label. -/
def specCostLevel (score : ℤ) : String :=
  if score > 10 then "high" else if score > 5 then "medium" else "low"

example :
    calculate_risk { complexity_score := 150, test_coverage_ratio := mkRat 1 10 } = "high" :=
  by decide
example :
    calculate_priority
      { duplication := 10, complexity_score := 150, test_coverage_ratio := mkRat 1 10 } =
      "high" := by decide
example : calculate_risk { complexity_score := 10 } = "low" := by decide

/-! ## The TaskSpec data model (`models.py`) -/

/-- The `TaskSpec` pydantic model of `models.py` (lines 55-72), with the
same field names and defaults.  `verbosity` is a `Literal` enum in the
source; `risk`, `priority` and `estimated_cost` are plain strings there. -/
structure TaskSpec where
  goal : String
  inputs : List String := []
  outputs : List String := []
  constraints_explicit : List String := []
  constraints_inferred : List String := []
  libraries_preferred : List String := []
  libraries_forbidden : List String := []
  style_guides : List String := []
  naming_conventions : List String := []
  design_patterns : List String := []
  testing_strategy : String := ""
  edge_cases : List String := []
  verbosity : String := "normal"
  open_questions : List String := []
  risk : String := "medium"
  priority : String := "medium"
  estimated_cost : String := "medium"
deriving DecidableEq

/-- A TaskSpec dict carrying the extra `examples` key that
`RAGEnrichment.enrich_taskspec` may add.  A `TaskSpec` itself has no
`examples` field, so on the input side of enrichment the key is always
absent, which is modelled as the empty list. -/
structure EnrichedSpec extends TaskSpec where
  examples : List String := []
deriving DecidableEq

/-! ## The RAG system (`rag_system.py`) -/

/-- The `spec` payload of a stored decision record, as read by the
enrichment extractors (`decision.get("spec", {})` followed by `.get` calls
with empty defaults). -/
structure DecisionSpec where
  goal : String := ""
  constraints_inferred : List String := []
  edge_cases : List String := []
deriving DecidableEq

/-- A historical decision record.  `serialized` stands for the JSON
serialization `json.dumps(item)` of the record, of which only the length is
used (token estimation); `spec` is the payload the enrichment reads. -/
structure Decision where
  serialized : String := ""
  spec : DecisionSpec := {}
deriving DecidableEq

/-- The retrieved-context dict produced by `RAGPolicy.retrieve_context`:
`decisions`, `similar_items` and a stored `total_tokens` estimate. -/
structure RetrievedContext where
  decisions : List Decision := []
  similar_items : List Decision := []
  total_tokens : Nat := 0
deriving DecidableEq

/-- `RAGPolicy._estimate_tokens` (lines 44-49): sum over the items of
`len(json.dumps(item)) // 4`. -/
def estimate_tokens (items : List Decision) : Nat :=
  items.foldl (fun total item => total + item.serialized.length / 4) 0

/-- `RAGPolicy.summarize_overflow` (lines 59-77): return the context
unchanged when its stored token estimate fits in `max_tokens`; otherwise
keep only the first two decisions (when there are more than two) and
recompute the token estimate over the kept decisions and similar items. -/
def summarize_overflow (context : RetrievedContext) (max_tokens : Nat) : RetrievedContext :=
  if context.total_tokens ≤ max_tokens then context
  else
    let decisions :=
      if context.decisions.length > 2 then context.decisions.take 2 else context.decisions
    { decisions := decisions,
      similar_items := context.similar_items,
      total_tokens := estimate_tokens (decisions ++ context.similar_items) }

/-- Ordered occurrence counting: Python dict insertion-order semantics of
`constraint_counts[c] = constraint_counts.get(c, 0) + 1`. -/
def bumpCount : List (String × Nat) → String → List (String × Nat)
  | [], c => [(c, 1)]
  | (k, n) :: rest, c =>
    if k = c then (k, n + 1) :: rest else (k, n) :: bumpCount rest c

/-- `RAGEnrichment._extract_patterns_from_context` (lines 118-141). -/
def extract_patterns (context : RetrievedContext) : List String :=
  if context.decisions.length < 2 then []
  else
    let counts := context.decisions.foldl
      (fun acc d => d.spec.constraints_inferred.foldl bumpCount acc) []
    (counts.filter (fun kv => kv.2 ≥ 2)).map (fun kv => "Pattern: " ++ kv.1)

/-- `RAGEnrichment._extract_edge_cases_from_context` (lines 143-157):
first-seen-order union of the decisions' edge cases, capped at 5. -/
def extract_edge_cases (context : RetrievedContext) : List String :=
  (context.decisions.foldl
    (fun acc d => d.spec.edge_cases.foldl
      (fun a c => if c ∈ a then a else a ++ [c]) acc) []).take 5

/-- `RAGEnrichment._extract_examples_from_context` (lines 159-173): one
example per decision with a non-empty goal, capped at 3. -/
def extract_examples (context : RetrievedContext) : List String :=
  (context.decisions.filterMap
    (fun d => if d.spec.goal = "" then none else some ("Similar task: " ++ d.spec.goal))).take 3

/-- `RAGEnrichment.enrich_taskspec` (lines 87-116), with the retrieved
context as an explicit parameter (the source retrieves it from the memory
store; the claims quantify over every retrieved context).  An empty goal
short-circuits before retrieval.  The source only writes the `examples` key
when the extracted list is non-empty; an absent key is modelled as `[]`,
which coincides with writing the extracted list unconditionally. -/
def enrich_taskspec (t : TaskSpec) (context : RetrievedContext) : EnrichedSpec :=
  if t.goal = "" then { toTaskSpec := t, examples := [] }
  else
    let patterns := extract_patterns context
    let t1 :=
      if patterns.isEmpty then t
      else { t with constraints_inferred := t.constraints_inferred ++ patterns }
    let edge_cases := extract_edge_cases context
    let t2 :=
      if edge_cases.isEmpty then t1
      else { t1 with edge_cases := t1.edge_cases ++ edge_cases }
    { toTaskSpec := t2, examples := extract_examples context }

/-! ## TaskSpec assembly (`spec_generator.py`) -/

/-- The user style profile (`_get_default_style_profile` fields). -/
structure StyleProfile where
  naming_conventions : List String := []
  testing_strategy : String := ""
  style_guides : List String := []
  design_patterns : List String := []
  libraries_preferred : List String := []
  libraries_forbidden : List String := []
deriving DecidableEq

/-- The built-in default style profile of `_get_default_style_profile`. -/
def default_style_profile : StyleProfile where
  naming_conventions := ["functions: snake_case", "classes: PascalCase"]
  testing_strategy := "pytest; arrange-act-assert"
  style_guides := ["google docstrings"]
  design_patterns := ["dependency_injection", "pure_functions_first"]

/-- `os.path.basename` on POSIX: the part after the last `/`. -/
def basename (path : String) : String :=
  (path.splitOn "/").getLastD ""

/-- `SpecGenerator._infer_goal_from_analysis` (lines 132-148). -/
def infer_goal (s : AnalysisSignals) (filename : String) : String :=
  let issues :=
    (if s.duplication > 3 then ["refactor duplicated code"] else []) ++
    (if s.complexity_score > 50 then ["simplify complex functions"] else []) ++
    (if s.test_coverage_ratio < mkRat 1 2 then ["add missing tests"] else []) ++
    (if s.todos > 2 then ["address TODO items"] else [])
  if issues.isEmpty then "Maintain code quality in " ++ filename
  else "Improve code quality in " ++ filename ++ ": " ++ String.intercalate ", " issues

/-- Deduplicating merge standing in for Python's `list(set(a + b))`; set
iteration order is unspecified in Python, modelled as first-occurrence
order. -/
def dedupMerge (a b : List String) : List String :=
  (a ++ b).eraseDups

/-- `SpecGenerator.cluster_signals_to_taskspec` (lines 40-130), with the
loaded style profile and the retrieved enrichment context as explicit
parameters (the source reads the profile from disk and the context from the
memory store).  The final `TaskSpec(**enriched_taskspec)` drops the extra
`examples` key, which `toTaskSpec` models. -/
def cluster_signals_to_taskspec (s : AnalysisSignals) (profile : StyleProfile)
    (context : RetrievedContext) : TaskSpec :=
  let filename := if s.filepath = "" then "unknown" else basename s.filepath
  let goal := infer_goal s filename
  let parsed :=
    if s.prompt = "" then (⟨[], [], []⟩ : ParsedConstraints)
    else parse_explicit_constraints s.prompt
  let constraints_inferred :=
    (if s.duplication > 3 then ["Address code duplication"] else []) ++
    (if s.complexity_score > 50 then ["Reduce function complexity"] else []) ++
    (if s.test_coverage_ratio < mkRat 1 2 then ["Improve test coverage"] else []) ++
    (if s.todos > 2 then ["Address outstanding TODO items"] else []) ++
    profile.style_guides.map (fun guide => "Follow " ++ guide)
  let open_questions :=
    (if s.duplication > 3 then
      ["Which duplicated sections should be refactored into shared functions?"] else []) ++
    (if s.complexity_score > 50 then ["How can this complex function be broken down?"] else []) ++
    (if s.test_coverage_ratio < mkRat 1 2 then ["Which functions need test cases?"] else []) ++
    (if s.todos > 2 then ["Which TODO items should be prioritized?"] else [])
  let taskspec : TaskSpec :=
    { goal := goal,
      inputs := if s.filepath = "" then [] else [s.filepath],
      outputs := [],
      constraints_explicit := parsed.constraints_explicit,
      constraints_inferred := constraints_inferred,
      libraries_preferred := dedupMerge parsed.libraries_preferred profile.libraries_preferred,
      libraries_forbidden := dedupMerge parsed.libraries_forbidden profile.libraries_forbidden,
      style_guides := profile.style_guides,
      naming_conventions := profile.naming_conventions,
      design_patterns := profile.design_patterns,
      testing_strategy := profile.testing_strategy,
      edge_cases := [],
      verbosity := "normal",
      open_questions := open_questions,
      risk := calculate_risk s,
      priority := calculate_priority s,
      estimated_cost := estimate_cost s }
  (enrich_taskspec taskspec context).toTaskSpec

/-- Word counter implementing Python's `str.split()` length: the number of
maximal runs of non-whitespace characters. -/
def countWordsAux : Bool → List Char → Nat
  | _, [] => 0
  | inWord, c :: cs =>
    if isSpace c then countWordsAux false cs
    else (if inWord then 0 else 1) + countWordsAux true cs

/-- `len(goal.split())`. -/
def countWords (s : String) : Nat :=
  countWordsAux false s.toList

/-- `SpecGenerator.generate_clarifying_questions` (lines 226-257):
sequential conditional appends, in the fixed source order. -/
def generate_clarifying_questions (t : TaskSpec) : List String :=
  (if t.inputs.isEmpty then ["What are the main inputs this code should handle?"] else []) ++
  (if t.outputs.isEmpty then ["What outputs should this code produce?"] else []) ++
  (if countWords t.goal < 5 then
    ["Can you provide more details about what this code should accomplish?"] else []) ++
  (if t.testing_strategy = "" then
    ["What testing approach should be used (unit tests, integration tests, etc.)?"] else []) ++
  (if t.constraints_explicit.isEmpty then
    ["Are there any specific requirements or constraints I should follow?"] else []) ++
  (if t.edge_cases.isEmpty then
    ["What edge cases or error conditions should be considered?"] else []) ++
  (if t.libraries_preferred.isEmpty && t.libraries_forbidden.isEmpty then
    ["Are there any preferred or forbidden libraries/frameworks?"] else [])

/-- The ordered (condition, question) table of the clarifying-question
checks, written from the words of claim C8. -/
def clarifyChecks (t : TaskSpec) : List (Bool × String) :=
  [(t.inputs.isEmpty, "What are the main inputs this code should handle?"),
   (t.outputs.isEmpty, "What outputs should this code produce?"),
   (countWords t.goal < 5,
    "Can you provide more details about what this code should accomplish?"),
   (t.testing_strategy = "",
    "What testing approach should be used (unit tests, integration tests, etc.)?"),
   (t.constraints_explicit.isEmpty,
    "Are there any specific requirements or constraints I should follow?"),
   (t.edge_cases.isEmpty, "What edge cases or error conditions should be considered?"),
   (t.libraries_preferred.isEmpty && t.libraries_forbidden.isEmpty,
    "Are there any preferred or forbidden libraries/frameworks?")]

/-- Python `answer.split(",")` followed by `.strip()` on each item. -/
def splitComma (answer : String) : List String :=
  (answer.splitOn ",").map String.trim

/-- Case-insensitive substring test on the question text, Python's
`"..." in question.lower()`. -/
def qHas (question needle : String) : Bool :=
  containsSub needle.toList (lowerList question.toList)

/-- One iteration of the answer-merging loop of
`SpecGenerator.enhance_taskspec_with_answers` (lines 259-281). -/
def applyAnswer (t : TaskSpec) (qa : String × String) : TaskSpec :=
  if qHas qa.1 "inputs" then { t with inputs := splitComma qa.2 }
  else if qHas qa.1 "outputs" then { t with outputs := splitComma qa.2 }
  else if qHas qa.1 "testing" then { t with testing_strategy := qa.2 }
  else if qHas qa.1 "requirements" || qHas qa.1 "constraints" then
    { t with constraints_explicit := t.constraints_explicit ++ [qa.2] }
  else if qHas qa.1 "edge cases" then { t with edge_cases := splitComma qa.2 }
  else if qHas qa.1 "libraries" then
    (if qHas qa.1 "preferred" then { t with libraries_preferred := splitComma qa.2 }
     else if qHas qa.1 "forbidden" then { t with libraries_forbidden := splitComma qa.2 }
     else t)
  else t

/-- `SpecGenerator.enhance_taskspec_with_answers`: fold the answers map in
iteration (insertion) order over the copied TaskSpec. -/
def enhance_taskspec_with_answers (t : TaskSpec) (answers : List (String × String)) : TaskSpec :=
  answers.foldl applyAnswer t

/-! ## Theorems -/

/-- C1: for every `AnalysisSignals` input, the risk level equals the
mapping (≥5 → high, ≥3 → medium, else low) of the score that adds 3 if
`complexity_score > 100` else 2 if `> 50`, adds 3 if
`test_coverage_ratio < 0.3` else 2 if `< 0.5`, and adds 2 if
`todo_count > 5`; at `complexity_score = 50` neither complexity
contribution fires, at 51 the `> 50` contribution fires. -/
theorem calculate_risk_matches_spec (s : AnalysisSignals) :
    calculate_risk s = specRiskLevel (specRiskScore s) ∧
    riskComplexityContrib { s with complexity_score := 50 } = 0 ∧
    riskComplexityContrib { s with complexity_score := 51 } = 2 := by
  refine ⟨?_, by norm_num [riskComplexityContrib], by norm_num [riskComplexityContrib]⟩
  unfold calculate_risk specRiskLevel risk_score specRiskScore riskComplexityContrib
    riskCoverageContrib riskTodoContrib
  simp only [Nat.zero_add]

/-- C2: for every `AnalysisSignals` input, the priority equals the mapping
(≥6 → high, ≥3 → medium, else low) of the sum of five independent
contributions: 3 if `duplication_count > 10`, 3 if
`complexity_score > 100`, 3 if `test_coverage_ratio < 0.2`, 2 if
`duplication_count > 5` and 2 if `complexity_score > 50` — both duplication
checks (and both complexity checks) can fire together. -/
theorem calculate_priority_matches_spec (s : AnalysisSignals) :
    calculate_priority s = specPriorityLevel (specPriorityScore s) := by
  unfold calculate_priority specPriorityLevel priority_score specPriorityScore
  simp only [Nat.zero_add]

/-- C3: for every `AnalysisSignals` input, the estimated cost equals the
mapping (>10 → high, >5 → medium, else low) of
`floor(complexity_score/10) + floor(duplication_count/2) + (2 if
test_coverage_ratio < 0.5 else 0)`; a cost of exactly 10 maps to medium and
a cost of exactly 5 maps to low. -/
theorem estimate_cost_matches_spec (s : AnalysisSignals) :
    estimate_cost s = specCostLevel (specCostScore s) ∧
    specCostLevel 10 = "medium" ∧ specCostLevel 5 = "low" := by
  refine ⟨?_, by decide, by decide⟩
  unfold estimate_cost specCostLevel cost_score specCostScore
  have hdup : ((s.duplication / 2 : Nat) : ℤ) = ⌊((s.duplication : ℚ) / 2 : ℚ)⌋ := by
    rw [show ((s.duplication : ℚ) : ℚ) = ((s.duplication : ℤ) : ℚ) by push_cast; ring,
      show (2 : ℚ) = ((2 : ℕ) : ℚ) by norm_num,
      Rat.floor_intCast_div_natCast]
    omega
  rw [← hdup]
  ring_nf

/-- C5: `summarize_overflow` returns the context unchanged when its stored
token estimate is at most `max_tokens`, and otherwise returns the context
with only the first two decision records (in arrival order) retained and
the token estimate recomputed as the sum of `serialized-length / 4` over
the retained records (the kept decisions and the similar items). -/
theorem summarize_overflow_matches_spec (context : RetrievedContext) (max_tokens : Nat) :
    summarize_overflow context max_tokens =
      if context.total_tokens ≤ max_tokens then context
      else
        { decisions := context.decisions.take 2,
          similar_items := context.similar_items,
          total_tokens := estimate_tokens (context.decisions.take 2 ++ context.similar_items) } := by
  unfold summarize_overflow
  split
  · rfl
  · by_cases h : context.decisions.length > 2
    · simp [h]
    · have htake : context.decisions.take 2 = context.decisions :=
        List.take_of_length_le (by omega)
      simp [h, htake]

/-- Helper: enrichment touches only `constraints_inferred`, `edge_cases`
and `examples`, and only by appending. -/
lemma enrich_taskspec_fields (t : TaskSpec) (context : RetrievedContext) :
    (enrich_taskspec t context).goal = t.goal ∧
    (enrich_taskspec t context).inputs = t.inputs ∧
    (enrich_taskspec t context).outputs = t.outputs ∧
    (enrich_taskspec t context).constraints_explicit = t.constraints_explicit ∧
    (enrich_taskspec t context).libraries_preferred = t.libraries_preferred ∧
    (enrich_taskspec t context).libraries_forbidden = t.libraries_forbidden ∧
    (enrich_taskspec t context).style_guides = t.style_guides ∧
    (enrich_taskspec t context).naming_conventions = t.naming_conventions ∧
    (enrich_taskspec t context).design_patterns = t.design_patterns ∧
    (enrich_taskspec t context).testing_strategy = t.testing_strategy ∧
    (enrich_taskspec t context).verbosity = t.verbosity ∧
    (enrich_taskspec t context).open_questions = t.open_questions ∧
    (enrich_taskspec t context).risk = t.risk ∧
    (enrich_taskspec t context).priority = t.priority ∧
    (enrich_taskspec t context).estimated_cost = t.estimated_cost ∧
    (∃ a, (enrich_taskspec t context).constraints_inferred = t.constraints_inferred ++ a) ∧
    (∃ b, (enrich_taskspec t context).edge_cases = t.edge_cases ++ b) ∧
    (∃ e, (enrich_taskspec t context).examples = [] ++ e) := by
  by_cases hg : t.goal = "" <;>
    by_cases hp : (extract_patterns context).isEmpty <;>
      by_cases he : (extract_edge_cases context).isEmpty <;>
        simp [enrich_taskspec, hg, hp, he]

/-- Helper: `_calculate_risk` only returns one of the three labels. -/
lemma calculate_risk_mem (s : AnalysisSignals) :
    calculate_risk s ∈ (["low", "medium", "high"] : List String) := by
  unfold calculate_risk
  split
  · simp
  · split <;> simp

/-- Helper: `_calculate_priority` only returns one of the three labels. -/
lemma calculate_priority_mem (s : AnalysisSignals) :
    calculate_priority s ∈ (["low", "medium", "high"] : List String) := by
  unfold calculate_priority
  split
  · simp
  · split <;> simp

/-- Helper: `_estimate_cost` only returns one of the three labels. -/
lemma estimate_cost_mem (s : AnalysisSignals) :
    estimate_cost s ∈ (["low", "medium", "high"] : List String) := by
  unfold estimate_cost
  split
  · simp
  · split <;> simp

/-- Helper: enrichment keeps `verbosity`. -/
lemma enrich_keeps_verbosity (t : TaskSpec) (context : RetrievedContext) :
    (enrich_taskspec t context).verbosity = t.verbosity :=
  (enrich_taskspec_fields t context).2.2.2.2.2.2.2.2.2.2.1

/-- Helper: enrichment keeps `risk`. -/
lemma enrich_keeps_risk (t : TaskSpec) (context : RetrievedContext) :
    (enrich_taskspec t context).risk = t.risk :=
  (enrich_taskspec_fields t context).2.2.2.2.2.2.2.2.2.2.2.2.1

/-- Helper: enrichment keeps `priority`. -/
lemma enrich_keeps_priority (t : TaskSpec) (context : RetrievedContext) :
    (enrich_taskspec t context).priority = t.priority :=
  (enrich_taskspec_fields t context).2.2.2.2.2.2.2.2.2.2.2.2.2.1

/-- Helper: enrichment keeps `estimated_cost`. -/
lemma enrich_keeps_estimated_cost (t : TaskSpec) (context : RetrievedContext) :
    (enrich_taskspec t context).estimated_cost = t.estimated_cost :=
  (enrich_taskspec_fields t context).2.2.2.2.2.2.2.2.2.2.2.2.2.2.1

/-- Helper: one answer-merging step never touches the enum fields. -/
lemma applyAnswer_frame (t : TaskSpec) (qa : String × String) :
    (applyAnswer t qa).verbosity = t.verbosity ∧
    (applyAnswer t qa).risk = t.risk ∧
    (applyAnswer t qa).priority = t.priority ∧
    (applyAnswer t qa).estimated_cost = t.estimated_cost := by
  unfold applyAnswer
  refine ⟨?_, ?_, ?_, ?_⟩ <;> (repeat' split) <;> rfl

/-- Helper: answer merging never touches the enum fields. -/
lemma enhance_frame (answers : List (String × String)) :
    ∀ t : TaskSpec,
      (enhance_taskspec_with_answers t answers).verbosity = t.verbosity ∧
      (enhance_taskspec_with_answers t answers).risk = t.risk ∧
      (enhance_taskspec_with_answers t answers).priority = t.priority ∧
      (enhance_taskspec_with_answers t answers).estimated_cost = t.estimated_cost := by
  induction answers with
  | nil => exact fun t => ⟨rfl, rfl, rfl, rfl⟩
  | cons qa rest ih =>
    intro t
    have h1 := applyAnswer_frame t qa
    have h2 := ih (applyAnswer t qa)
    unfold enhance_taskspec_with_answers at h2 ⊢
    rw [List.foldl_cons]
    exact ⟨h2.1.trans h1.1, h2.2.1.trans h1.2.1, h2.2.2.1.trans h1.2.2.1,
      h2.2.2.2.trans h1.2.2.2⟩

/-- C6: enriching a TaskSpec whose goal is empty is the identity, for every
retrieved context / corpus state: the returned dict is an unchanged copy of
the input (and carries no `examples` key, modelled as `[]`). -/
theorem enrich_taskspec_empty_goal_identity (t : TaskSpec) (context : RetrievedContext)
    (h : t.goal = "") :
    enrich_taskspec t context = { toTaskSpec := t, examples := [] } := by
  simp [enrich_taskspec, h]

/-- Witness for C6 at a concrete empty-goal TaskSpec and context. -/
theorem enrich_taskspec_empty_goal_identity_witness :
    ({ goal := "" } : TaskSpec).goal = "" ∧
      enrich_taskspec { goal := "" } {} = { toTaskSpec := { goal := "" }, examples := [] } :=
  ⟨rfl, enrich_taskspec_empty_goal_identity { goal := "" } {} rfl⟩

/-- C7: for every TaskSpec with non-empty goal and every retrieved context,
enrichment removes or overwrites no field: every field other than
`constraints_inferred`, `edge_cases` and `examples` is unchanged, and those
three only grow by appending (the input's value is a prefix of the
output's; a `TaskSpec` has no `examples` field, so the input's `examples`
value is the empty list). -/
theorem enrich_taskspec_is_additive (t : TaskSpec) (context : RetrievedContext)
    (hg : t.goal ≠ "") :
    (enrich_taskspec t context).goal = t.goal ∧
    (enrich_taskspec t context).inputs = t.inputs ∧
    (enrich_taskspec t context).outputs = t.outputs ∧
    (enrich_taskspec t context).constraints_explicit = t.constraints_explicit ∧
    (enrich_taskspec t context).libraries_preferred = t.libraries_preferred ∧
    (enrich_taskspec t context).libraries_forbidden = t.libraries_forbidden ∧
    (enrich_taskspec t context).style_guides = t.style_guides ∧
    (enrich_taskspec t context).naming_conventions = t.naming_conventions ∧
    (enrich_taskspec t context).design_patterns = t.design_patterns ∧
    (enrich_taskspec t context).testing_strategy = t.testing_strategy ∧
    (enrich_taskspec t context).verbosity = t.verbosity ∧
    (enrich_taskspec t context).open_questions = t.open_questions ∧
    (enrich_taskspec t context).risk = t.risk ∧
    (enrich_taskspec t context).priority = t.priority ∧
    (enrich_taskspec t context).estimated_cost = t.estimated_cost ∧
    (∃ a, (enrich_taskspec t context).constraints_inferred = t.constraints_inferred ++ a) ∧
    (∃ b, (enrich_taskspec t context).edge_cases = t.edge_cases ++ b) ∧
    (∃ e, (enrich_taskspec t context).examples = [] ++ e) :=
  enrich_taskspec_fields t context

/-- Witness for C7 at a concrete TaskSpec and context. -/
theorem enrich_taskspec_is_additive_witness :
    ({ goal := "g" } : TaskSpec).goal ≠ "" ∧
      ((enrich_taskspec { goal := "g" }
        { decisions := [{ spec := { goal := "d", edge_cases := ["e1"] } },
                        { spec := { goal := "d", edge_cases := ["e1"] } }] }).goal = "g" ∧
       ∃ b, (enrich_taskspec { goal := "g" }
        { decisions := [{ spec := { goal := "d", edge_cases := ["e1"] } },
                        { spec := { goal := "d", edge_cases := ["e1"] } }] }).edge_cases =
          [] ++ b) := by
  have h := enrich_taskspec_is_additive { goal := "g" }
    { decisions := [{ spec := { goal := "d", edge_cases := ["e1"] } },
                    { spec := { goal := "d", edge_cases := ["e1"] } }] } (by decide)
  exact ⟨by decide, h.1, h.2.2.2.2.2.2.2.2.2.2.2.2.2.2.2.2.1⟩

/-- C4: the four enum fields are always one of their enumerated values on
every TaskSpec the pipeline produces: assembly yields `verbosity ∈
{minimal, normal, verbose}` and `risk, priority, estimated_cost ∈ {low,
medium, high}` (in fact `verbosity` is the literal `"normal"`), and both
enrichment and answer-merging leave these four fields unchanged, so the
property is preserved along the whole pipeline. -/
theorem pipeline_enum_fields (s : AnalysisSignals) (profile : StyleProfile)
    (context : RetrievedContext) (t : TaskSpec) (context2 : RetrievedContext)
    (answers : List (String × String)) :
    ((cluster_signals_to_taskspec s profile context).verbosity ∈
        (["minimal", "normal", "verbose"] : List String) ∧
     (cluster_signals_to_taskspec s profile context).risk ∈
        (["low", "medium", "high"] : List String) ∧
     (cluster_signals_to_taskspec s profile context).priority ∈
        (["low", "medium", "high"] : List String) ∧
     (cluster_signals_to_taskspec s profile context).estimated_cost ∈
        (["low", "medium", "high"] : List String)) ∧
    ((enrich_taskspec t context2).verbosity = t.verbosity ∧
     (enrich_taskspec t context2).risk = t.risk ∧
     (enrich_taskspec t context2).priority = t.priority ∧
     (enrich_taskspec t context2).estimated_cost = t.estimated_cost) ∧
    ((enhance_taskspec_with_answers t answers).verbosity = t.verbosity ∧
     (enhance_taskspec_with_answers t answers).risk = t.risk ∧
     (enhance_taskspec_with_answers t answers).priority = t.priority ∧
     (enhance_taskspec_with_answers t answers).estimated_cost = t.estimated_cost) := by
  refine ⟨?_, ?_, enhance_frame answers t⟩
  · simp only [cluster_signals_to_taskspec, enrich_keeps_verbosity, enrich_keeps_risk,
      enrich_keeps_priority, enrich_keeps_estimated_cost]
    exact ⟨by simp, calculate_risk_mem s, calculate_priority_mem s, estimate_cost_mem s⟩
  · exact ⟨enrich_keeps_verbosity t context2, enrich_keeps_risk t context2,
      enrich_keeps_priority t context2, enrich_keeps_estimated_cost t context2⟩

/-- C8: `generate_clarifying_questions` equals the filter of the fixed
ordered (condition, question) table — so each of the seven questions
appears exactly when its condition holds and the emitted questions keep the
fixed relative order (inputs, outputs, goal detail, testing, constraints,
edge cases, libraries) — and on a TaskSpec with empty inputs, empty
outputs, a goal of fewer than five words, empty testing strategy, empty
explicit constraints, empty edge cases and both library lists empty it
returns exactly the seven questions, one per condition. -/
theorem generate_clarifying_questions_spec :
    (∀ t : TaskSpec,
      generate_clarifying_questions t =
        ((clarifyChecks t).filter (fun bq => bq.1)).map (fun bq => bq.2)) ∧
    generate_clarifying_questions { goal := "Create a function" } =
      ["What are the main inputs this code should handle?",
       "What outputs should this code produce?",
       "Can you provide more details about what this code should accomplish?",
       "What testing approach should be used (unit tests, integration tests, etc.)?",
       "Are there any specific requirements or constraints I should follow?",
       "What edge cases or error conditions should be considered?",
       "Are there any preferred or forbidden libraries/frameworks?"] := by
  constructor
  · intro t
    by_cases h1 : t.inputs.isEmpty <;> by_cases h2 : t.outputs.isEmpty <;>
      by_cases h3 : countWords t.goal < 5 <;> by_cases h4 : t.testing_strategy = "" <;>
        by_cases h5 : t.constraints_explicit.isEmpty <;>
          by_cases h6 : t.edge_cases.isEmpty <;>
            by_cases h7 : (t.libraries_preferred.isEmpty && t.libraries_forbidden.isEmpty) = true <;>
              simp [generate_clarifying_questions, clarifyChecks, h1, h2, h3, h4, h5, h6, h7]
  · decide

/-! ## Lemmas about the findall scan, used for claims C9 and C10 -/

/-- Helper: a capture character is not whitespace. -/
lemma isSpace_eq_false {c : Char} (h : isCapChar c = true) : isSpace c = false := by
  simp [isCapChar] at h
  exact h.1.1

/-- Helper: `takeWhile isCapChar` stops immediately on a delimiter head. -/
lemma takeWhile_capChar_nil (r : List Char) (h : isCapChar (r.headD ' ') = false) :
    r.takeWhile isCapChar = [] := by
  cases r with
  | nil => rfl
  | cons c cs =>
    simp only [List.headD_cons] at h
    simp [List.takeWhile_cons, h]

/-- Helper: `dropWhile isCapChar` is the identity on a delimiter head. -/
lemma dropWhile_capChar_self (r : List Char) (h : isCapChar (r.headD ' ') = false) :
    r.dropWhile isCapChar = r := by
  cases r with
  | nil => rfl
  | cons c cs =>
    simp only [List.headD_cons] at h
    simp [List.dropWhile_cons, h]

/-- Helper: `takeWhile isCapChar` keeps a list of capture characters. -/
lemma takeWhile_capChar_all (X : List Char) (h : ∀ c ∈ X, isCapChar c = true) :
    X.takeWhile isCapChar = X := by
  induction X with
  | nil => rfl
  | cons c cs ih =>
    simp [List.takeWhile_cons, h c (by simp), ih (fun x hx => h x (by simp [hx]))]

/-- Helper: `dropWhile isCapChar` drops a list of capture characters. -/
lemma dropWhile_capChar_all (X : List Char) (h : ∀ c ∈ X, isCapChar c = true) :
    X.dropWhile isCapChar = [] := by
  induction X with
  | nil => rfl
  | cons c cs ih =>
    simp [List.dropWhile_cons, h c (by simp), ih (fun x hx => h x (by simp [hx]))]

/-- Helper: the capture succeeds on a non-empty all-capture-character list
and consumes it entirely. -/
lemma cap1_all (c : Char) (cs : List Char) (h : ∀ x ∈ c :: cs, isCapChar x = true) :
    cap1 (c :: cs) = some (c :: cs, []) := by
  have h2 : ∀ x ∈ cs, isCapChar x = true := fun x hx => h x (by simp [hx])
  simp [cap1, h c (by simp), takeWhile_capChar_all cs h2, dropWhile_capChar_all cs h2]

/-- Helper: a failed literal prefix makes `dropLit` fail. -/
lemma dropLit_eq_none (m l : List Char) (h : startsWith m l = false) :
    dropLit m l = none := by
  induction m generalizing l with
  | nil => simp [startsWith] at h
  | cons c cs ih =>
    cases l with
    | nil => rfl
    | cons d ds =>
      by_cases hc : c = d
      · simp only [startsWith, hc, if_pos] at h
        simp [dropLit, hc, ih ds h]
      · simp [dropLit, hc]

/-- Helper: `dropLit` returns a subset (in fact a suffix) of its input. -/
lemma dropLit_subset (m l r : List Char) (h : dropLit m l = some r) :
    ∀ x ∈ r, x ∈ l := by
  induction m generalizing l with
  | nil =>
    simp [dropLit] at h
    subst h
    exact fun x hx => hx
  | cons c cs ih =>
    cases l with
    | nil => simp [dropLit] at h
    | cons d ds =>
      by_cases hc : c = d
      · simp only [dropLit, hc, if_pos rfl] at h
        exact fun x hx => by simp [ih ds h x hx]
      · simp [dropLit, hc] at h

/-- Helper: an alternative whose literal is not a prefix does not match. -/
lemma matchAlt_none_of_startsWith_false (pat : Pat) (a : Char × List Char) (l : List Char)
    (h : startsWith (a.1 :: a.2) l = false) :
    matchAlt pat a l = none := by
  cases l with
  | nil => rfl
  | cons c cs =>
    by_cases hc : c = a.1
    · rw [hc] at h
      simp only [startsWith, if_pos] at h
      simp [matchAlt, hc, dropLit_eq_none a.2 cs h]
    · simp [matchAlt, hc]

/-- Helper: no alternative prefix means no match. -/
lemma matchAlts_none (pat : Pat) (alts : List (Char × List Char)) (l : List Char)
    (h : ∀ a ∈ alts, startsWith (a.1 :: a.2) l = false) :
    matchAlts pat alts l = none := by
  induction alts with
  | nil => rfl
  | cons a as ih =>
    simp [matchAlts, matchAlt_none_of_startsWith_false pat a l (h a (by simp)),
      ih (fun b hb => h b (by simp [hb]))]

/-- Helper: no alternative prefix means `matchAt` fails. -/
lemma matchAt_none_of_startsWith_false (pat : Pat) (l : List Char)
    (h : ∀ a ∈ pat.alts, startsWith (a.1 :: a.2) l = false) :
    matchAt pat l = none :=
  matchAlts_none pat pat.alts l h

/-- Helper: `matchAt` fails on the empty list. -/
lemma matchAt_nil (pat : Pat) : matchAt pat [] = none := by
  unfold matchAt
  induction pat.alts with
  | nil => rfl
  | cons a as ih => simp [matchAlts, matchAlt, ih]

/-- Helper: `matchAt` fails when the head character matches no
alternative's head character. -/
lemma matchAt_head_ne (pat : Pat) (c : Char) (l : List Char)
    (h : ∀ a ∈ pat.alts, ¬c = a.1) :
    matchAt pat (c :: l) = none := by
  apply matchAt_none_of_startsWith_false
  intro a ha
  simp only [startsWith]
  rw [if_neg (fun heq => (h a ha) heq.symm)]

/-- Helper: the successor-fuel cons equation of `findallF`. -/
lemma findallF_succ_cons (pat : Pat) (f : Nat) (c : Char) (cs : List Char) :
    findallF pat (f + 1) (c :: cs) =
      match matchAt pat (c :: cs) with
      | some (cap, rest) => cap :: findallF pat f rest
      | none => findallF pat f cs := rfl

/-- Helper: the findall scan emits the capture of a match that no earlier
position matches over. -/
lemma mem_findallF (pat : Pat) {l cap rest : List Char}
    (hm : matchAt pat l = some (cap, rest)) :
    ∀ (u : List Char) (fuel : Nat),
      (∀ q < u.length, matchAt pat (List.drop q (u ++ l)) = none) →
      (u ++ l).length ≤ fuel →
      cap ∈ findallF pat fuel (u ++ l) := by
  intro u
  induction u with
  | nil =>
    intro fuel _ hfuel
    rw [List.nil_append] at hfuel ⊢
    cases l with
    | nil => rw [matchAt_nil pat] at hm; exact absurd hm (by simp)
    | cons c cs =>
      cases fuel with
      | zero => simp at hfuel
      | succ f =>
        simp only [findallF, hm]
        exact List.mem_cons_self _ _
  | cons a u' ih =>
    intro fuel hnone hfuel
    cases fuel with
    | zero => simp at hfuel
    | succ f =>
      have h0 : matchAt pat (a :: (u' ++ l)) = none := by
        have := hnone 0 (by simp)
        simpa using this
      show cap ∈ findallF pat (f + 1) (a :: (u' ++ l))
      rw [findallF_succ_cons, h0]
      apply ih f
      · intro q hq
        have := hnone (q + 1) (by simp; omega)
        simpa [List.drop_succ_cons] using this
      · simp only [List.cons_append, List.length_cons] at hfuel
        omega

/-- Helper: matching the avoid pattern on `"avoid numpy" ++ r` captures
exactly `numpy` when `r` starts with a delimiter (or is empty). -/
lemma matchAt_avoid_numpy (r : List Char) (h : isCapChar (r.headD ' ') = false) :
    matchAt patAvoid ("avoid numpy".toList ++ r) = some ("numpy".toList, r) := by
  have e0 : matchAt patAvoid ("avoid numpy".toList ++ r) =
      some ('n' :: 'u' :: 'm' :: 'p' :: 'y' :: List.takeWhile isCapChar r,
        List.dropWhile isCapChar r) := rfl
  rw [e0, takeWhile_capChar_nil r h, dropWhile_capChar_self r h]
  rfl

/-- Helper: matching the prefer/use pattern on `"prefer pandas" ++ r`
captures exactly `pandas` when `r` starts with a delimiter (or is empty). -/
lemma matchAt_prefer_pandas (r : List Char) (h : isCapChar (r.headD ' ') = false) :
    matchAt patPreferUse ("prefer pandas".toList ++ r) = some ("pandas".toList, r) := by
  have e0 : matchAt patPreferUse ("prefer pandas".toList ++ r) =
      some ('p' :: 'a' :: 'n' :: 'd' :: 'a' :: 's' :: List.takeWhile isCapChar r,
        List.dropWhile isCapChar r) := rfl
  rw [e0, takeWhile_capChar_nil r h, dropWhile_capChar_self r h]
  rfl

/-- Helper: the cons equation of `matchAlts`. -/
lemma matchAlts_cons (pat : Pat) (a : Char × List Char) (as : List (Char × List Char))
    (l : List Char) :
    matchAlts pat (a :: as) l =
      match matchAlt pat a l with
      | some r => some r
      | none => matchAlts pat as l := rfl

/-- Helper: the optional group backtracks to a plain capture on a single
all-capture-character token. -/
lemma optStep_token (o : List Char) (c : Char) (cs : List Char)
    (hcap : ∀ x ∈ c :: cs, isCapChar x = true) :
    optStep o (c :: cs) = some (c :: cs, []) := by
  unfold optStep
  rcases hdl : dropLit o (c :: cs) with _ | l3
  · exact cap1_all c cs hcap
  · have hsub := dropLit_subset o (c :: cs) l3 hdl
    have hsp : spaces1 l3 = none := by
      cases l3 with
      | nil => rfl
      | cons e es =>
        have : isSpace e = false := isSpace_eq_false (hcap e (hsub e (by simp)))
        simp [spaces1, this]
    dsimp only
    rw [hsp]
    exact cap1_all c cs hcap

/-- Helper: matching the don't-use pattern on `"don't use " ++ X` captures
exactly the single token `X`. -/
lemma matchAt_dont_use (c : Char) (cs : List Char)
    (hcap : ∀ x ∈ c :: cs, isCapChar x = true) :
    matchAt patDontUse ("don't use ".toList ++ (c :: cs)) = some (c :: cs, []) := by
  have hs : isSpace c = false := isSpace_eq_false (hcap c (by simp))
  have e1 : List.dropWhile isSpace (c :: cs) = c :: cs := by
    simp [List.dropWhile_cons, hs]
  have hm : matchAlt patDontUse ('d', "on't".toList) ("don't use ".toList ++ (c :: cs)) =
      some (c :: cs, []) := by
    have e0 : matchAlt patDontUse ('d', "on't".toList) ("don't use ".toList ++ (c :: cs)) =
        cap1 (List.dropWhile isSpace (c :: cs)) := rfl
    rw [e0, e1, cap1_all c cs hcap]
  show matchAlts patDontUse patDontUse.alts ("don't use ".toList ++ (c :: cs)) = _
  rw [show patDontUse.alts = [('d', "on't".toList)] from rfl, matchAlts_cons, hm]

/-- Helper: matching the prefer/use pattern on `"use " ++ X` captures
exactly the single token `X` (this is the pro-pattern firing inside
`"don't use X"`). -/
lemma matchAt_use_token (c : Char) (cs : List Char)
    (hcap : ∀ x ∈ c :: cs, isCapChar x = true) :
    matchAt patPreferUse ("use ".toList ++ (c :: cs)) = some (c :: cs, []) := by
  have hs : isSpace c = false := isSpace_eq_false (hcap c (by simp))
  have e1 : List.dropWhile isSpace (c :: cs) = c :: cs := by
    simp [List.dropWhile_cons, hs]
  have h1 : matchAlt patPreferUse ('p', "refer".toList) ("use ".toList ++ (c :: cs)) =
      none := rfl
  have h2 : matchAlt patPreferUse ('u', "se".toList) ("use ".toList ++ (c :: cs)) =
      optStep "the".toList (List.dropWhile isSpace (c :: cs)) := rfl
  show matchAlts patPreferUse patPreferUse.alts ("use ".toList ++ (c :: cs)) = _
  rw [show patPreferUse.alts = [('p', "refer".toList), ('u', "se".toList)] from rfl,
    matchAlts_cons, h1]
  show matchAlts patPreferUse [('u', "se".toList)] ("use ".toList ++ (c :: cs)) = _
  rw [matchAlts_cons, h2, e1, optStep_token "the".toList c cs hcap]

/-- Helper: a surviving capture of an avoid pattern lands in
`libraries_forbidden`. -/
lemma mem_forbidden_of_capture {p : String} {m : List Char} {pat : Pat}
    (hp : pat ∈ avoidPats)
    (hm : m ∈ findallPat pat (lowerList p.toList))
    (hns : notStop m = true) :
    String.mk m ∈ (parse_explicit_constraints p).libraries_forbidden := by
  show String.mk m ∈
    ((avoidPats.flatMap fun pat =>
      (findallPat pat (lowerList p.toList)).filter notStop).map (fun m => String.mk m))
  exact List.mem_map.mpr ⟨m, List.mem_flatMap.mpr ⟨pat, hp, List.mem_filter.mpr ⟨hm, hns⟩⟩, rfl⟩

/-- Helper: a surviving capture of a prefer pattern lands in
`libraries_preferred`. -/
lemma mem_preferred_of_capture {p : String} {m : List Char} {pat : Pat}
    (hp : pat ∈ preferPats)
    (hm : m ∈ findallPat pat (lowerList p.toList))
    (hns : notStop m = true) :
    String.mk m ∈ (parse_explicit_constraints p).libraries_preferred := by
  show String.mk m ∈
    ((preferPats.flatMap fun pat =>
      (findallPat pat (lowerList p.toList)).filter notStop).map (fun m => String.mk m))
  exact List.mem_map.mpr ⟨m, List.mem_flatMap.mpr ⟨pat, hp, List.mem_filter.mpr ⟨hm, hns⟩⟩, rfl⟩

/-- C10 (amended): for every non-empty single-token library name X that
contains no whitespace, comma or period, equals its own lowercasing, and
whose token is not a stop word, parsing the prompt "don't use X" places X
in `libraries_forbidden` AND in `libraries_preferred`: the pro-pattern
`(?:prefer|use)\s+...` also matches inside the phrase "don't use X", so one
non-contradictory prompt yields overlapping preferred and forbidden sets. -/
theorem dont_use_lands_in_both_lists (X : String)
    (hne : X.toList ≠ [])
    (hcap : ∀ c ∈ X.toList, isCapChar c = true)
    (hlow : lowerList X.toList = X.toList)
    (hstop : notStop X.toList = true) :
    X ∈ (parse_explicit_constraints ("don't use " ++ X)).libraries_forbidden ∧
    X ∈ (parse_explicit_constraints ("don't use " ++ X)).libraries_preferred := by
  have htl : ("don't use " ++ X).toList = "don't use ".toList ++ X.toList := by
    simp [String.toList]
  have hlp : lowerList ("don't use " ++ X).toList = "don't use ".toList ++ X.toList := by
    rw [htl]
    unfold lowerList at hlow ⊢
    rw [List.map_append, hlow]
    congr 1
  obtain ⟨c, cs, hX⟩ : ∃ c cs, X.toList = c :: cs := by
    cases hx : X.toList with
    | nil => exact absurd hx hne
    | cons c cs => exact ⟨c, cs, rfl⟩
  have hcap2 : ∀ x ∈ c :: cs, isCapChar x = true := by rw [← hX]; exact hcap
  constructor
  · have hmem : X.toList ∈ findallPat patDontUse (lowerList ("don't use " ++ X).toList) := by
      rw [hlp, hX]
      unfold findallPat
      exact mem_findallF patDontUse (matchAt_dont_use c cs hcap2) [] _
        (fun q hq => absurd hq (by simp)) (le_refl _)
    exact mem_forbidden_of_capture
      (List.mem_cons_of_mem _ (List.mem_cons_self _ _)) hmem hstop
  · have hsplit : "don't use ".toList = "don't ".toList ++ "use ".toList := by decide
    have hmem : X.toList ∈ findallPat patPreferUse (lowerList ("don't use " ++ X).toList) := by
      rw [hlp, hX, hsplit, List.append_assoc]
      unfold findallPat
      refine mem_findallF patPreferUse (matchAt_use_token c cs hcap2)
        "don't ".toList _ ?_ (le_refl _)
      intro q hq
      have hq6 : q < 6 := by simpa using hq
      interval_cases q <;> exact matchAt_head_ne _ _ _ (by decide)
    exact mem_preferred_of_capture (List.mem_cons_self _ _) hmem hstop

/-- Witness for C10's amended claim at the concrete token `numpy`. -/
theorem dont_use_lands_in_both_lists_witness :
    (("numpy" : String).toList ≠ [] ∧
     (∀ c ∈ ("numpy" : String).toList, isCapChar c = true) ∧
     lowerList ("numpy" : String).toList = ("numpy" : String).toList ∧
     notStop ("numpy" : String).toList = true) ∧
    ("numpy" ∈ (parse_explicit_constraints ("don't use " ++ "numpy")).libraries_forbidden ∧
     "numpy" ∈ (parse_explicit_constraints ("don't use " ++ "numpy")).libraries_preferred) :=
  ⟨⟨by decide, by decide, by decide, by decide⟩,
    dont_use_lands_in_both_lists "numpy" (by decide) (by decide) (by decide) (by decide)⟩

/-- Counterexample to C10 as stated: `NumPy` is a single-token library name
(no whitespace, comma or period; not one of the stop words), yet parsing
"don't use NumPy" does not place `NumPy` in `libraries_forbidden` — the
parser lowercases the prompt, so only the lowercased token `numpy` is
recorded. -/
theorem dont_use_case_counterexample :
    (∀ c ∈ ("NumPy" : String).toList, isCapChar c = true) ∧
    ("NumPy" : String) ∉ (["the", "a", "an", "to", "and", "or"] : List String) ∧
    ("NumPy" : String) ∉ (parse_explicit_constraints "don't use NumPy").libraries_forbidden ∧
    (parse_explicit_constraints "don't use NumPy").libraries_forbidden = ["numpy"] := by
  decide

/-- C9 (amended): for every prompt whose lowercased text splits as
`u ++ "avoid numpy" ++ (d :: v) ++ "prefer pandas" ++ w` where `d` is a
whitespace, comma or period delimiter, `w` is empty or starts with such a
delimiter, no occurrence of `avoid` starts before the `avoid numpy`
occurrence, and no occurrence of `prefer` or `use` starts before the
`prefer pandas` occurrence, `parse_explicit_constraints` yields
`numpy ∈ libraries_forbidden` and `pandas ∈ libraries_preferred`. -/
theorem parse_avoid_and_prefer (p : String) (u v w : List Char) (d : Char)
    (hs : lowerList p.toList =
      u ++ "avoid numpy".toList ++ d :: v ++ "prefer pandas".toList ++ w)
    (hd : isCapChar d = false)
    (hw : isCapChar (w.headD ' ') = false)
    (hA : ∀ q < u.length,
      startsWith "avoid".toList (List.drop q (lowerList p.toList)) = false)
    (hP : ∀ q < u.length + 12 + v.length,
      startsWith "prefer".toList (List.drop q (lowerList p.toList)) = false)
    (hU : ∀ q < u.length + 12 + v.length,
      startsWith "use".toList (List.drop q (lowerList p.toList)) = false) :
    "numpy" ∈ (parse_explicit_constraints p).libraries_forbidden ∧
    "pandas" ∈ (parse_explicit_constraints p).libraries_preferred := by
  have hre : lowerList p.toList =
      u ++ ("avoid numpy".toList ++ (d :: (v ++ ("prefer pandas".toList ++ w)))) := by
    rw [hs]
    simp [List.append_assoc]
  have hmA : matchAt patAvoid
      ("avoid numpy".toList ++ (d :: (v ++ ("prefer pandas".toList ++ w)))) =
      some ("numpy".toList, d :: (v ++ ("prefer pandas".toList ++ w))) :=
    matchAt_avoid_numpy _ (by simpa using hd)
  have hmemF : "numpy".toList ∈ findallPat patAvoid (lowerList p.toList) := by
    rw [hre]
    unfold findallPat
    refine mem_findallF patAvoid hmA u _ ?_ (le_refl _)
    intro q hq
    apply matchAt_none_of_startsWith_false
    intro a ha
    have ha2 : a = ('a', "void".toList) := by simpa [patAvoid] using ha
    subst ha2
    have := hA q hq
    rw [hre] at this
    exact this
  have h1 : String.mk "numpy".toList ∈ (parse_explicit_constraints p).libraries_forbidden :=
    mem_forbidden_of_capture (List.mem_cons_self _ _) hmemF (by decide)
  have hre2 : lowerList p.toList =
      (u ++ "avoid numpy".toList ++ d :: v) ++ ("prefer pandas".toList ++ w) := by
    rw [hs]
    simp [List.append_assoc]
  have hlen : (u ++ "avoid numpy".toList ++ d :: v).length = u.length + 12 + v.length := by
    have h11 : ("avoid numpy".toList : List Char).length = 11 := by decide
    simp [List.length_append, h11]
    omega
  have hmemP : "pandas".toList ∈ findallPat patPreferUse (lowerList p.toList) := by
    rw [hre2]
    unfold findallPat
    refine mem_findallF patPreferUse (matchAt_prefer_pandas w hw) _ _ ?_ (le_refl _)
    intro q hq
    rw [hlen] at hq
    apply matchAt_none_of_startsWith_false
    intro a ha
    have ha2 : a = ('p', "refer".toList) ∨ a = ('u', "se".toList) := by
      simpa [patPreferUse] using ha
    have hPq := hP q hq
    have hUq := hU q hq
    rw [hre2] at hPq hUq
    rcases ha2 with rfl | rfl
    · exact hPq
    · exact hUq
  have h2 : String.mk "pandas".toList ∈ (parse_explicit_constraints p).libraries_preferred :=
    mem_preferred_of_capture (List.mem_cons_self _ _) hmemP (by decide)
  exact ⟨h1, h2⟩

/-- Witness for C9's amended claim at the concrete prompt
"avoid numpy, prefer pandas". -/
theorem parse_avoid_and_prefer_witness :
    (lowerList ("avoid numpy, prefer pandas" : String).toList =
      [] ++ "avoid numpy".toList ++ ',' :: [' '] ++ "prefer pandas".toList ++ [] ∧
     isCapChar ',' = false ∧
     isCapChar (([] : List Char).headD ' ') = false ∧
     (∀ q < ([] : List Char).length,
       startsWith "avoid".toList
         (List.drop q (lowerList ("avoid numpy, prefer pandas" : String).toList)) = false) ∧
     (∀ q < ([] : List Char).length + 12 + ([' '] : List Char).length,
       startsWith "prefer".toList
         (List.drop q (lowerList ("avoid numpy, prefer pandas" : String).toList)) = false) ∧
     (∀ q < ([] : List Char).length + 12 + ([' '] : List Char).length,
       startsWith "use".toList
         (List.drop q (lowerList ("avoid numpy, prefer pandas" : String).toList)) = false)) ∧
    ("numpy" ∈ (parse_explicit_constraints "avoid numpy, prefer pandas").libraries_forbidden ∧
     "pandas" ∈ (parse_explicit_constraints "avoid numpy, prefer pandas").libraries_preferred) :=
  ⟨⟨by decide, by decide, by decide, by decide, by decide, by decide⟩,
    parse_avoid_and_prefer "avoid numpy, prefer pandas" [] [' '] [] ','
      (by decide) (by decide) (by decide) (by decide) (by decide) (by decide)⟩

/-- Counterexample to C9 as stated: the prompt "avoid numpyx prefer pandas"
contains both "avoid numpy" and "prefer pandas" as substrings, yet `numpy`
is not in `libraries_forbidden` — the greedy capture `[^\s,.]+` swallows
the whole token `numpyx`. -/
theorem avoid_numpy_contains_counterexample :
    containsSub "avoid numpy".toList ("avoid numpyx prefer pandas" : String).toList = true ∧
    containsSub "prefer pandas".toList ("avoid numpyx prefer pandas" : String).toList = true ∧
    "numpy" ∉ (parse_explicit_constraints "avoid numpyx prefer pandas").libraries_forbidden ∧
    (parse_explicit_constraints "avoid numpyx prefer pandas").libraries_forbidden =
      ["numpyx"] := by
  decide

end Sidecar
